import Mathlib

/-!
Shallow embedding of the PhantomPad confidential crowdfunding contract
(PhantomPad.sol) over an explicit model of the FHE co-processor:
ciphertext handles are natural numbers allocated from a counter, a store
maps each handle to the plaintext it encrypts (reduced modulo 2^64), and
an access-control list records decrypt-permission grants as
(handle, viewer) pairs.  Handle 0 is the uninitialized sentinel
(FHE.isInitialized is modelled as the handle being nonzero).  Addresses
are natural numbers with 0 as the zero-address sentinel.
-/

/-- The modulus of the euint64 ciphertext domain, 2^64. -/
def U64 : Nat := 18446744073709551616

/-- State of the FHE co-processor: handle counter, plaintext behind each
handle, and the decrypt-permission grants. -/
structure FHEState where
  nextHandle : Nat
  values : Nat → Nat
  acl : List (Nat × Nat)

/-- Allocate a fresh ciphertext handle holding the plaintext reduced mod 2^64. -/
def FHEState.alloc (f : FHEState) (v : Nat) : Nat × FHEState :=
  (f.nextHandle,
   { f with nextHandle := f.nextHandle + 1,
            values := fun h => if h = f.nextHandle then v % U64 else f.values h })

/-- Model of FHE.asEuint64: trivially encrypt a plaintext into a fresh handle. -/
def FHEState.asEuint64 (f : FHEState) (v : Nat) : Nat × FHEState := f.alloc v

/-- Model of FHE.add on euint64 handles: homomorphic addition modulo 2^64. -/
def FHEState.addE (f : FHEState) (a b : Nat) : Nat × FHEState :=
  f.alloc (f.values a + f.values b)

/-- Model of FHE.asEbool(true): an encrypted boolean true (plaintext 1). -/
def FHEState.asEboolTrue (f : FHEState) : Nat × FHEState := f.alloc 1

/-- Model of FHE.allow / FHE.allowThis: grant a viewer decrypt permission
on a handle.  Grants are only ever added, never removed. -/
def FHEState.allow (f : FHEState) (h viewer : Nat) : FHEState :=
  { f with acl := (h, viewer) :: f.acl }

/-- The Campaign struct of PhantomPad.sol.  `target` and `totalRaised`
are euint64 ciphertext handles. -/
structure Campaign where
  name : String
  target : Nat
  totalRaised : Nat
  deadline : Nat
  creator : Nat
  ended : Bool

/-- The default mapping value for `_campaigns` (all fields zero / empty). -/
def Campaign.empty : Campaign :=
  { name := "", target := 0, totalRaised := 0, deadline := 0, creator := 0, ended := false }

/-- The spec's error kinds, one per revert reason of the source:
"Name required" / "Target required" / "Deadline must be in the future"
are ValidationError, "Unsupported token" and "Only creator" are
AuthorizationError, "Campaign not found" is NotFoundError, "Campaign
already ended" is AlreadyEndedError, "Campaign expired" is ExpiredError. -/
inductive Err where
  | validation (msg : String)
  | notFound
  | authorization
  | alreadyEnded
  | expired
deriving DecidableEq

/-- Storage of the PhantomPad contract, together with the FHE
co-processor state and the outbound ledger-transfer log (most recent
first), which stands for the balance movements the ledger performs on
the engine's behalf at settlement. -/
structure PadState where
  self : Nat
  paymentToken : Nat
  fhe : FHEState
  campaignCount : Nat
  campaigns : Nat → Campaign
  contributions : Nat → Nat → Nat
  transfers : List (Nat × Nat)

/-- PhantomPad.createCampaign.  `sender` is msg.sender and `now` is
block.timestamp. -/
def createCampaign (s : PadState) (sender now : Nat) (name : String)
    (target deadline : Nat) : Except Err (Nat × PadState) :=
  if name.length = 0 then .error (.validation "Name required")
  else if target = 0 then .error (.validation "Target required")
  else if deadline ≤ now then .error (.validation "Deadline must be in the future")
  else
    let campaignId := s.campaignCount + 1
    let p1 := s.fhe.asEuint64 target
    let p2 := p1.2.asEuint64 0
    let encryptedTarget := p1.1
    let initialRaised := p2.1
    let f :=
      (((p2.2.allow encryptedTarget s.self).allow encryptedTarget sender).allow
          initialRaised s.self).allow initialRaised sender
    .ok (campaignId,
      { s with fhe := f, campaignCount := campaignId,
               campaigns := fun i =>
                 if i = campaignId then
                   { name := name, target := encryptedTarget, totalRaised := initialRaised,
                     deadline := deadline, creator := sender, ended := false }
                 else s.campaigns i })

/-- The mutation performed by the success path of
PhantomPad.onConfidentialTransferReceived (everything after the four
`require` checks): homomorphically add the amount to the campaign total
and to the contributor's per-campaign entry (an uninitialized entry,
handle 0, is replaced by a fresh encrypted zero first), grant the decrypt
permissions, and produce the encrypted acceptance boolean. -/
def contribApply (s : PadState) (sender now contributor amt campaignId : Nat) :
    Nat × PadState :=
  let campaign := s.campaigns campaignId
  let q1 := s.fhe.addE campaign.totalRaised amt
  let updatedTotal := q1.1
  let f2 := ((q1.2.allow updatedTotal s.self).allow updatedTotal campaign.creator).allow
      updatedTotal contributor
  let cur := s.contributions campaignId contributor
  let q2 := if cur = 0 then f2.asEuint64 0 else (cur, f2)
  let q3 := q2.2.addE q2.1 amt
  let updatedContribution := q3.1
  let f4 := (q3.2.allow updatedContribution s.self).allow updatedContribution contributor
  let q4 := f4.asEboolTrue
  let accepted := q4.1
  let f5 := (q4.2.allow accepted s.self).allow accepted sender
  (accepted,
   { s with fhe := f5,
            campaigns := fun i =>
              if i = campaignId then { campaign with totalRaised := updatedTotal }
              else s.campaigns i,
            contributions := fun i a =>
              if i = campaignId then
                (if a = contributor then updatedContribution else s.contributions i a)
              else s.contributions i a })

/-- PhantomPad.onConfidentialTransferReceived.  `sender` is msg.sender,
`now` is block.timestamp, `amount` is the transferred euint64 handle and
`data` is the abi-decoded campaign id carried in the callback data. -/
def onConfidentialTransferReceived (s : PadState)
    (sender now opr contributor amount data : Nat) : Except Err (Nat × PadState) :=
  if sender = s.paymentToken then
    let campaignId := data
    let campaign := s.campaigns campaignId
    if campaign.creator = 0 then .error .notFound
    else if campaign.ended then .error .alreadyEnded
    else if campaign.deadline < now then .error .expired
    else .ok (contribApply s sender now contributor amount campaignId)
  else .error .authorization

/-- The local settlement stage of PhantomPad.endCampaign: set
`ended := true`, capture the current total as the payout, grant the
engine and the caller decrypt access to it, and reset `totalRaised` to a
fresh encrypted zero.  All of this happens strictly before the outbound
ledger transfer.  Returns the updated state and the payout handle. -/
def endCampaignSettle (s : PadState) (sender campaignId : Nat) : PadState × Nat :=
  let campaign := s.campaigns campaignId
  let payout := campaign.totalRaised
  let f1 := (s.fhe.allow payout s.self).allow payout sender
  let q := f1.asEuint64 0
  ({ s with fhe := q.2,
            campaigns := fun i =>
              if i = campaignId then { campaign with totalRaised := q.1, ended := true }
              else s.campaigns i },
   payout)

/-- Modelled from the spec: the Confidential Asset Ledger's plain
encrypted-transfer operation (ConfidentialUSDC.confidentialTransfer,
whose source is not under src/).  Per the spec it takes a recipient and
a ciphertext amount, moves the balance, and returns the resulting
ciphertext handle actually transferred, which may be re-derived by the
ledger.  The model re-derives a fresh handle carrying the same plaintext
and records the outbound movement in the transfer log. -/
def confidentialTransfer (s : PadState) (recipient h : Nat) : Nat × PadState :=
  let q := s.fhe.alloc (s.fhe.values h)
  (q.1, { s with fhe := q.2, transfers := (recipient, q.1) :: s.transfers })

/-- PhantomPad.endCampaign.  `sender` is msg.sender. -/
def endCampaign (s : PadState) (sender campaignId : Nat) : Except Err (Nat × PadState) :=
  let campaign := s.campaigns campaignId
  if campaign.creator = 0 then .error .notFound
  else if sender = campaign.creator then
    if campaign.ended then .error .alreadyEnded
    else
      let r1 := endCampaignSettle s sender campaignId
      let r2 := confidentialTransfer r1.1 sender r1.2
      .ok (r2.1, r2.2)
  else .error .authorization

/-- PhantomPad.contributionOf. -/
def contributionOf (s : PadState) (campaignId user : Nat) : Nat :=
  s.contributions campaignId user

/-- PhantomPad.isCampaignActive. -/
def isCampaignActive (s : PadState) (now campaignId : Nat) : Bool :=
  decide ((s.campaigns campaignId).creator ≠ 0) && !(s.campaigns campaignId).ended &&
    decide (now ≤ (s.campaigns campaignId).deadline)

/-- Decrypt a ciphertext handle (read its plaintext from the store). -/
def valOf (s : PadState) (h : Nat) : Nat := s.fhe.values h

/-- The decrypted per-campaign contribution entry of a contributor, an
uninitialized entry (handle 0) being read as zero. -/
def entryVal (s : PadState) (campaignId a : Nat) : Nat :=
  if s.contributions campaignId a = 0 then 0
  else s.fhe.values (s.contributions campaignId a)

/-- One public mutating operation of the engine, used to quantify over
arbitrary operation sequences. -/
inductive Op where
  | create (sender now : Nat) (name : String) (target deadline : Nat)
  | contribute (sender now opr contributor amount data : Nat)
  | settle (sender campaignId : Nat)

/-- Apply one operation; a failed operation leaves the state unchanged
(errors are fail-fast and atomic). -/
def applyOp (s : PadState) (op : Op) : PadState :=
  match op with
  | .create sender now name target deadline =>
    match createCampaign s sender now name target deadline with
    | .ok r => r.2
    | .error _ => s
  | .contribute sender now opr contributor amount data =>
    match onConfidentialTransferReceived s sender now opr contributor amount data with
    | .ok r => r.2
    | .error _ => s
  | .settle sender campaignId =>
    match endCampaign s sender campaignId with
    | .ok r => r.2
    | .error _ => s

/-- The campaign ids returned by the successful creations in an
operation sequence, in order. -/
def createdIds (s : PadState) : List Op → List Nat
  | [] => []
  | op :: l =>
    match op with
    | .create sender now name target deadline =>
      match createCampaign s sender now name target deadline with
      | .ok r => r.1 :: createdIds r.2 l
      | .error _ => createdIds s l
    | _ => createdIds (applyOp s op) l

/-- Run a sequence of contributions (contributor, plaintext amount)
against one campaign: each amount is encrypted client-side and delivered
through the ledger's transfer-and-call callback.  Stops at the first
rejected contribution. -/
def runContribs (now campaignId : Nat) : PadState → List (Nat × Nat) → Except Err PadState
  | s, [] => .ok s
  | s, p :: l =>
    let q := s.fhe.asEuint64 p.2
    let s1 : PadState := { s with fhe := q.2 }
    match onConfidentialTransferReceived s1 s1.paymentToken now 0 p.1 q.1 campaignId with
    | .ok r => runContribs now campaignId r.2 l
    | .error e => .error e

/-- Sum of all contributed amounts in a sequence. -/
def sumAmts (l : List (Nat × Nat)) : Nat := (l.map Prod.snd).sum

/-- Sum of the amounts contributed by one particular contributor. -/
def sumOwn (a : Nat) (l : List (Nat × Nat)) : Nat :=
  ((l.filter fun p => p.1 == a).map Prod.snd).sum

/-- Well-formedness of a contract state: every stored ciphertext handle
has been allocated, and only ids up to the counter hold campaign
records.  This holds for the deployed contract's initial state and is
preserved by every operation. -/
def WF (s : PadState) : Prop :=
  0 < s.fhe.nextHandle ∧
  (∀ c, (s.campaigns c).target < s.fhe.nextHandle) ∧
  (∀ c, (s.campaigns c).totalRaised < s.fhe.nextHandle) ∧
  (∀ c a, s.contributions c a < s.fhe.nextHandle) ∧
  (∀ c, s.campaignCount < c → s.campaigns c = Campaign.empty)

theorem FHEState.alloc_fst (f : FHEState) (v : Nat) : (f.alloc v).1 = f.nextHandle := rfl

theorem FHEState.alloc_nextHandle (f : FHEState) (v : Nat) :
    (f.alloc v).2.nextHandle = f.nextHandle + 1 := rfl

theorem FHEState.alloc_values_self (f : FHEState) (v : Nat) :
    (f.alloc v).2.values f.nextHandle = v % U64 := by
  simp [FHEState.alloc]

theorem FHEState.alloc_values_lt (f : FHEState) (v h : Nat) (hh : h < f.nextHandle) :
    (f.alloc v).2.values h = f.values h := by
  simp only [FHEState.alloc]
  exact if_neg (by omega)

theorem contribApply_self (s : PadState) (sender now ctb amt cid : Nat) :
    (contribApply s sender now ctb amt cid).2.self = s.self := rfl

theorem contribApply_paymentToken (s : PadState) (sender now ctb amt cid : Nat) :
    (contribApply s sender now ctb amt cid).2.paymentToken = s.paymentToken := rfl

theorem contribApply_campaignCount (s : PadState) (sender now ctb amt cid : Nat) :
    (contribApply s sender now ctb amt cid).2.campaignCount = s.campaignCount := rfl

theorem contribApply_transfers (s : PadState) (sender now ctb amt cid : Nat) :
    (contribApply s sender now ctb amt cid).2.transfers = s.transfers := rfl

theorem contribApply_campaigns (s : PadState) (sender now ctb amt cid c : Nat) :
    (contribApply s sender now ctb amt cid).2.campaigns c =
      if c = cid then { s.campaigns cid with totalRaised := s.fhe.nextHandle }
      else s.campaigns c := rfl

theorem contribApply_contributions_ne (s : PadState) (sender now ctb amt cid : Nat)
    (i a : Nat) (hne : ¬(i = cid ∧ a = ctb)) :
    (contribApply s sender now ctb amt cid).2.contributions i a = s.contributions i a := by
  by_cases hi : i = cid
  · have ha : ¬a = ctb := fun ha => hne ⟨hi, ha⟩
    simp [contribApply, hi, ha]
  · simp [contribApply, hi]

theorem contribApply_nextHandle (s : PadState) (sender now ctb amt cid : Nat) :
    s.fhe.nextHandle < (contribApply s sender now ctb amt cid).2.fhe.nextHandle := by
  by_cases hcur : s.contributions cid ctb = 0 <;>
    simp [contribApply, hcur, FHEState.addE, FHEState.asEuint64, FHEState.asEboolTrue,
      FHEState.alloc, FHEState.allow] <;>
    omega

theorem contribApply_values_lt (s : PadState) (sender now ctb amt cid h : Nat)
    (hh : h < s.fhe.nextHandle) :
    (contribApply s sender now ctb amt cid).2.fhe.values h = s.fhe.values h := by
  by_cases hcur : s.contributions cid ctb = 0 <;>
    simp only [contribApply, hcur, FHEState.addE, FHEState.asEuint64, FHEState.asEboolTrue,
      FHEState.alloc, FHEState.allow, if_true, if_false, ite_true, ite_false, eq_self_iff_true,
      not_true, not_false_iff] <;>
    split_ifs <;> first | rfl | (exfalso; omega)

theorem contribApply_total_value (s : PadState) (sender now ctb amt cid : Nat) :
    (contribApply s sender now ctb amt cid).2.fhe.values s.fhe.nextHandle
      = (s.fhe.values (s.campaigns cid).totalRaised + s.fhe.values amt) % U64 := by
  by_cases hcur : s.contributions cid ctb = 0 <;>
    simp only [contribApply, hcur, FHEState.addE, FHEState.asEuint64, FHEState.asEboolTrue,
      FHEState.alloc, FHEState.allow, ite_true, ite_false] <;>
    split_ifs <;> first | rfl | (exfalso; omega)

theorem contribApply_entry (s : PadState) (sender now ctb amt cid : Nat)
    (hamt : amt < s.fhe.nextHandle) (hcurlt : s.contributions cid ctb < s.fhe.nextHandle) :
    (contribApply s sender now ctb amt cid).2.contributions cid ctb ≠ 0 ∧
    (contribApply s sender now ctb amt cid).2.contributions cid ctb <
      (contribApply s sender now ctb amt cid).2.fhe.nextHandle ∧
    (contribApply s sender now ctb amt cid).2.fhe.values
        ((contribApply s sender now ctb amt cid).2.contributions cid ctb)
      = (entryVal s cid ctb + s.fhe.values amt) % U64 := by
  by_cases hcur : s.contributions cid ctb = 0
  · simp only [contribApply, hcur, entryVal, FHEState.addE, FHEState.asEuint64,
      FHEState.asEboolTrue, FHEState.alloc, FHEState.allow, if_true, ite_true, ite_false,
      eq_self_iff_true, if_pos, ne_eq]
    refine ⟨by omega, by omega, ?_⟩
    rw [if_neg (by omega), if_neg (by omega), if_neg (by omega)]
    simp
  · simp only [contribApply, hcur, entryVal, FHEState.addE, FHEState.asEuint64,
      FHEState.asEboolTrue, FHEState.alloc, FHEState.allow, if_true, ite_true, ite_false,
      eq_self_iff_true, if_pos, ne_eq]
    refine ⟨by omega, by omega, ?_⟩
    rw [if_neg (by omega), if_neg (by omega), if_neg (by omega)]

theorem contribApply_acl_mono (s : PadState) (sender now ctb amt cid : Nat)
    (g : Nat × Nat) (hg : g ∈ s.fhe.acl) :
    g ∈ (contribApply s sender now ctb amt cid).2.fhe.acl := by
  by_cases hcur : s.contributions cid ctb = 0 <;>
    simp [contribApply, hcur, FHEState.addE, FHEState.asEuint64, FHEState.asEboolTrue,
      FHEState.alloc, FHEState.allow] <;> tauto

theorem contribApply_acl_mem (s : PadState) (sender now ctb amt cid : Nat) :
    (s.fhe.nextHandle, s.self) ∈ (contribApply s sender now ctb amt cid).2.fhe.acl ∧
    (s.fhe.nextHandle, (s.campaigns cid).creator) ∈
      (contribApply s sender now ctb amt cid).2.fhe.acl ∧
    (s.fhe.nextHandle, ctb) ∈ (contribApply s sender now ctb amt cid).2.fhe.acl ∧
    ((contribApply s sender now ctb amt cid).2.contributions cid ctb, s.self) ∈
      (contribApply s sender now ctb amt cid).2.fhe.acl ∧
    ((contribApply s sender now ctb amt cid).2.contributions cid ctb, ctb) ∈
      (contribApply s sender now ctb amt cid).2.fhe.acl ∧
    ((contribApply s sender now ctb amt cid).1, s.self) ∈
      (contribApply s sender now ctb amt cid).2.fhe.acl ∧
    ((contribApply s sender now ctb amt cid).1, sender) ∈
      (contribApply s sender now ctb amt cid).2.fhe.acl := by
  by_cases hcur : s.contributions cid ctb = 0 <;>
    simp [contribApply, hcur, FHEState.addE, FHEState.asEuint64, FHEState.asEboolTrue,
      FHEState.alloc, FHEState.allow]

theorem contribApply_accepted_value (s : PadState) (sender now ctb amt cid : Nat) :
    (contribApply s sender now ctb amt cid).2.fhe.values
      (contribApply s sender now ctb amt cid).1 = 1 := by
  by_cases hcur : s.contributions cid ctb = 0 <;>
    simp [contribApply, hcur, FHEState.addE, FHEState.asEuint64, FHEState.asEboolTrue,
      FHEState.alloc, FHEState.allow, U64]

theorem createCampaign_ok_spec (s : PadState) (sender now : Nat) (name : String)
    (target deadline : Nat) (r : Nat × PadState)
    (h : createCampaign s sender now name target deadline = .ok r) :
    name.length ≠ 0 ∧ target ≠ 0 ∧ now < deadline ∧
    r.1 = s.campaignCount + 1 ∧
    r.2.self = s.self ∧ r.2.paymentToken = s.paymentToken ∧
    r.2.campaignCount = s.campaignCount + 1 ∧
    r.2.transfers = s.transfers ∧
    r.2.contributions = s.contributions ∧
    (∀ c, c ≠ s.campaignCount + 1 → r.2.campaigns c = s.campaigns c) ∧
    r.2.campaigns (s.campaignCount + 1) =
    { name := name, target := s.fhe.nextHandle, totalRaised := s.fhe.nextHandle + 1,
      deadline := deadline, creator := sender, ended := false } ∧
    r.2.fhe.nextHandle = s.fhe.nextHandle + 2 ∧
    (∀ hh, hh < s.fhe.nextHandle → r.2.fhe.values hh = s.fhe.values hh) ∧
    r.2.fhe.values s.fhe.nextHandle = target % U64 ∧
    r.2.fhe.values (s.fhe.nextHandle + 1) = 0 ∧
    (∀ g ∈ s.fhe.acl, g ∈ r.2.fhe.acl) ∧
    (s.fhe.nextHandle, s.self) ∈ r.2.fhe.acl ∧ (s.fhe.nextHandle, sender) ∈ r.2.fhe.acl ∧
    (s.fhe.nextHandle + 1, s.self) ∈ r.2.fhe.acl ∧
    (s.fhe.nextHandle + 1, sender) ∈ r.2.fhe.acl := by
  simp only [createCampaign] at h
  split_ifs at h with g1 g2 g3
  all_goals try exact Except.noConfusion h
  injection h with h'
  subst h'
  refine ⟨g1, g2, by omega, rfl, rfl, rfl, rfl, rfl, rfl, ?_, ?_, rfl, ?_, ?_, ?_, ?_, ?_,
    ?_, ?_, ?_⟩
  · intro c hc
    simp [FHEState.asEuint64, FHEState.alloc, FHEState.allow, hc]
  · simp [FHEState.asEuint64, FHEState.alloc, FHEState.allow]
  · intro hh hlt
    simp only [FHEState.asEuint64, FHEState.alloc, FHEState.allow]
    rw [if_neg (by omega), if_neg (by omega)]
  · simp only [FHEState.asEuint64, FHEState.alloc, FHEState.allow]
    rw [if_neg (by omega)]
    simp
  · simp only [FHEState.asEuint64, FHEState.alloc, FHEState.allow]
    simp
  · intro g hg
    simp [FHEState.asEuint64, FHEState.alloc, FHEState.allow]
    tauto
  · simp [FHEState.asEuint64, FHEState.alloc, FHEState.allow]
  · simp [FHEState.asEuint64, FHEState.alloc, FHEState.allow]
  · simp [FHEState.asEuint64, FHEState.alloc, FHEState.allow]
  · simp [FHEState.asEuint64, FHEState.alloc, FHEState.allow]

theorem endCampaign_ok_spec (s : PadState) (sender cid : Nat) (r : Nat × PadState)
    (h : endCampaign s sender cid = .ok r) :
    (s.campaigns cid).creator ≠ 0 ∧ sender = (s.campaigns cid).creator ∧
    (s.campaigns cid).ended = false ∧
    r.2.self = s.self ∧ r.2.paymentToken = s.paymentToken ∧
    r.2.campaignCount = s.campaignCount ∧
    r.2.contributions = s.contributions ∧
    (∀ c, c ≠ cid → r.2.campaigns c = s.campaigns c) ∧
    r.2.campaigns cid = { s.campaigns cid with ended := true, totalRaised := s.fhe.nextHandle } ∧
    r.2.fhe.nextHandle = s.fhe.nextHandle + 2 ∧
    (∀ hh, hh < s.fhe.nextHandle → r.2.fhe.values hh = s.fhe.values hh) ∧
    r.2.fhe.values s.fhe.nextHandle = 0 ∧
    r.1 = s.fhe.nextHandle + 1 ∧
    r.2.transfers = (sender, s.fhe.nextHandle + 1) :: s.transfers ∧
    (∀ g ∈ s.fhe.acl, g ∈ r.2.fhe.acl) ∧
    ((s.campaigns cid).totalRaised, s.self) ∈ r.2.fhe.acl ∧
    ((s.campaigns cid).totalRaised, sender) ∈ r.2.fhe.acl := by
  simp only [endCampaign] at h
  split_ifs at h with g1 g2 g3
  all_goals try exact Except.noConfusion h
  injection h with h'
  subst h'
  refine ⟨g1, g2, by simpa using g3, rfl, rfl, rfl, rfl, ?_, ?_, rfl, ?_, ?_, rfl, rfl,
    ?_, ?_, ?_⟩
  · intro c hc
    simp [endCampaignSettle, confidentialTransfer, FHEState.asEuint64, FHEState.alloc,
      FHEState.allow, hc]
  · simp [endCampaignSettle, confidentialTransfer, FHEState.asEuint64, FHEState.alloc,
      FHEState.allow]
  · intro hh hlt
    simp only [endCampaignSettle, confidentialTransfer, FHEState.asEuint64, FHEState.alloc,
      FHEState.allow]
    rw [if_neg (by omega), if_neg (by omega)]
  · simp only [endCampaignSettle, confidentialTransfer, FHEState.asEuint64, FHEState.alloc,
      FHEState.allow]
    rw [if_neg (by omega)]
    simp
  · intro g hg
    simp [endCampaignSettle, confidentialTransfer, FHEState.asEuint64, FHEState.alloc,
      FHEState.allow]
    tauto
  · simp [endCampaignSettle, confidentialTransfer, FHEState.asEuint64, FHEState.alloc,
      FHEState.allow]
  · simp [endCampaignSettle, confidentialTransfer, FHEState.asEuint64, FHEState.alloc,
      FHEState.allow]

theorem endCampaign_ok_payout_value (s : PadState) (sender cid : Nat) (r : Nat × PadState)
    (h : endCampaign s sender cid = .ok r)
    (htot : (s.campaigns cid).totalRaised < s.fhe.nextHandle) :
    r.2.fhe.values r.1 = s.fhe.values (s.campaigns cid).totalRaised % U64 := by
  simp only [endCampaign] at h
  split_ifs at h with g1 g2 g3
  all_goals try exact Except.noConfusion h
  injection h with h'
  subst h'
  simp only [endCampaignSettle, confidentialTransfer, FHEState.asEuint64, FHEState.alloc,
    FHEState.allow, eq_self_iff_true, ite_true, if_true]
  rw [if_neg (by omega)]

theorem onRecv_ok_conds (s : PadState) (sender now opr ctb amt data : Nat)
    (r : Nat × PadState)
    (h : onConfidentialTransferReceived s sender now opr ctb amt data = .ok r) :
    sender = s.paymentToken ∧ (s.campaigns data).creator ≠ 0 ∧
    (s.campaigns data).ended = false ∧ now ≤ (s.campaigns data).deadline ∧
    r = contribApply s sender now ctb amt data := by
  simp only [onConfidentialTransferReceived] at h
  split_ifs at h with g1 g2 g3 g4
  all_goals try exact Except.noConfusion h
  injection h with h'
  exact ⟨g1, g2, by simpa using g3, by omega, h'.symm⟩

theorem onRecv_err_token (s : PadState) (sender now opr ctb amt data : Nat)
    (h : sender ≠ s.paymentToken) :
    onConfidentialTransferReceived s sender now opr ctb amt data = .error .authorization := by
  simp [onConfidentialTransferReceived, h]

theorem onRecv_err_notFound (s : PadState) (sender now opr ctb amt data : Nat)
    (h1 : sender = s.paymentToken) (h2 : (s.campaigns data).creator = 0) :
    onConfidentialTransferReceived s sender now opr ctb amt data = .error .notFound := by
  simp [onConfidentialTransferReceived, h1, h2]

theorem onRecv_err_ended (s : PadState) (sender now opr ctb amt data : Nat)
    (h1 : sender = s.paymentToken) (h2 : (s.campaigns data).creator ≠ 0)
    (h3 : (s.campaigns data).ended = true) :
    onConfidentialTransferReceived s sender now opr ctb amt data = .error .alreadyEnded := by
  simp [onConfidentialTransferReceived, h1, h2, h3]

theorem onRecv_err_expired (s : PadState) (sender now opr ctb amt data : Nat)
    (h1 : sender = s.paymentToken) (h2 : (s.campaigns data).creator ≠ 0)
    (h3 : (s.campaigns data).ended = false) (h4 : (s.campaigns data).deadline < now) :
    onConfidentialTransferReceived s sender now opr ctb amt data = .error .expired := by
  simp [onConfidentialTransferReceived, h1, h2, h3, h4]

theorem endCampaign_err_notFound (s : PadState) (sender cid : Nat)
    (h : (s.campaigns cid).creator = 0) :
    endCampaign s sender cid = .error .notFound := by
  simp [endCampaign, h]

theorem endCampaign_err_auth (s : PadState) (sender cid : Nat)
    (h1 : (s.campaigns cid).creator ≠ 0) (h2 : sender ≠ (s.campaigns cid).creator) :
    endCampaign s sender cid = .error .authorization := by
  simp [endCampaign, h1, h2]

theorem endCampaign_err_ended (s : PadState) (sender cid : Nat)
    (h1 : (s.campaigns cid).creator ≠ 0) (h2 : sender = (s.campaigns cid).creator)
    (h3 : (s.campaigns cid).ended = true) :
    endCampaign s sender cid = .error .alreadyEnded := by
  simp [endCampaign, h1, h2, h3]

theorem createCampaign_err_name (s : PadState) (sender now : Nat) (name : String)
    (target deadline : Nat) (h : name.length = 0) :
    createCampaign s sender now name target deadline = .error (.validation "Name required") := by
  simp [createCampaign, h]

theorem createCampaign_err_target (s : PadState) (sender now : Nat) (name : String)
    (target deadline : Nat) (h1 : name.length ≠ 0) (h2 : target = 0) :
    createCampaign s sender now name target deadline
      = .error (.validation "Target required") := by
  simp [createCampaign, h1, h2]

theorem createCampaign_err_deadline (s : PadState) (sender now : Nat) (name : String)
    (target deadline : Nat) (h1 : name.length ≠ 0) (h2 : target ≠ 0) (h3 : deadline ≤ now) :
    createCampaign s sender now name target deadline
      = .error (.validation "Deadline must be in the future") := by
  simp [createCampaign, h1, h2, h3]

theorem contribApply_entry_lt (s : PadState) (sender now ctb amt cid : Nat) :
    (contribApply s sender now ctb amt cid).2.contributions cid ctb ≠ 0 ∧
    (contribApply s sender now ctb amt cid).2.contributions cid ctb <
      (contribApply s sender now ctb amt cid).2.fhe.nextHandle := by
  by_cases hcur : s.contributions cid ctb = 0 <;>
    simp [contribApply, hcur, FHEState.addE, FHEState.asEuint64, FHEState.asEboolTrue,
      FHEState.alloc, FHEState.allow] <;> omega

theorem WF_cid_le (s : PadState) (cid : Nat) (hWF : WF s)
    (hc : (s.campaigns cid).creator ≠ 0) : cid ≤ s.campaignCount := by
  by_contra hgt
  have he := hWF.2.2.2.2 cid (by omega)
  rw [he] at hc
  exact hc rfl

theorem WF_applyOp (s : PadState) (op : Op) (hWF : WF s) : WF (applyOp s op) := by
  obtain ⟨h0, htar, htot, hcon, hemp⟩ := hWF
  cases op with
  | create sender now name target deadline =>
    simp only [applyOp]
    cases hE : createCampaign s sender now name target deadline with
    | error e => exact ⟨h0, htar, htot, hcon, hemp⟩
    | ok r =>
      obtain ⟨-, -, -, -, -, -, hcnt, -, hcontr, hne, hat, hnext, -⟩ :=
        createCampaign_ok_spec s sender now name target deadline r hE
      show WF r.2
      refine ⟨by omega, ?_, ?_, ?_, ?_⟩
      · intro c
        by_cases hc : c = s.campaignCount + 1
        · subst hc
          rw [hat, hnext]
          show s.fhe.nextHandle < s.fhe.nextHandle + 2
          omega
        · rw [hne c hc, hnext]
          have := htar c
          omega
      · intro c
        by_cases hc : c = s.campaignCount + 1
        · subst hc
          rw [hat, hnext]
          show s.fhe.nextHandle + 1 < s.fhe.nextHandle + 2
          omega
        · rw [hne c hc, hnext]
          have := htot c
          omega
      · intro c a
        rw [hcontr, hnext]
        have := hcon c a
        omega
      · intro c hgt
        rw [hcnt] at hgt
        rw [hne c (by omega)]
        exact hemp c (by omega)
  | contribute sender now opr ctb amt data =>
    simp only [applyOp]
    cases hE : onConfidentialTransferReceived s sender now opr ctb amt data with
    | error e => exact ⟨h0, htar, htot, hcon, hemp⟩
    | ok r =>
      obtain ⟨hs, hcr, hen, hdl, hr⟩ := onRecv_ok_conds s sender now opr ctb amt data r hE
      subst hr
      have hnext := contribApply_nextHandle s sender now ctb amt data
      have hlt := contribApply_entry_lt s sender now ctb amt data
      show WF (contribApply s sender now ctb amt data).2
      refine ⟨by omega, ?_, ?_, ?_, ?_⟩
      · intro c
        rw [contribApply_campaigns]
        by_cases hc : c = data
        · rw [if_pos hc]
          show (s.campaigns data).target < _
          have := htar data
          omega
        · rw [if_neg hc]
          have := htar c
          omega
      · intro c
        rw [contribApply_campaigns]
        by_cases hc : c = data
        · rw [if_pos hc]
          show s.fhe.nextHandle < _
          omega
        · rw [if_neg hc]
          have := htot c
          omega
      · intro c a
        by_cases hca : c = data ∧ a = ctb
        · obtain ⟨hc, ha⟩ := hca
          subst hc; subst ha
          exact hlt.2
        · rw [contribApply_contributions_ne s sender now ctb amt data c a hca]
          have := hcon c a
          omega
      · intro c hgt
        rw [contribApply_campaignCount] at hgt
        rw [contribApply_campaigns]
        have hdle : data ≤ s.campaignCount := by
          by_contra hd
          have := hemp data (by omega)
          rw [this] at hcr
          exact hcr rfl
        rw [if_neg (by omega)]
        exact hemp c (by omega)
  | settle sender cid =>
    simp only [applyOp]
    cases hE : endCampaign s sender cid with
    | error e => exact ⟨h0, htar, htot, hcon, hemp⟩
    | ok r =>
      obtain ⟨hcr, hsc, hen, -, -, hcnt, hcontr, hne, hat, hnext, -⟩ :=
        endCampaign_ok_spec s sender cid r hE
      show WF r.2
      refine ⟨by omega, ?_, ?_, ?_, ?_⟩
      · intro c
        by_cases hc : c = cid
        · rw [hc, hat, hnext]
          show (s.campaigns cid).target < _
          have := htar cid
          omega
        · rw [hne c hc, hnext]
          have := htar c
          omega
      · intro c
        by_cases hc : c = cid
        · rw [hc, hat, hnext]
          show s.fhe.nextHandle < s.fhe.nextHandle + 2
          omega
        · rw [hne c hc, hnext]
          have := htot c
          omega
      · intro c a
        rw [hcontr, hnext]
        have := hcon c a
        omega
      · intro c hgt
        rw [hcnt] at hgt
        have hcle : cid ≤ s.campaignCount := by
          by_contra hd
          have := hemp cid (by omega)
          rw [this] at hcr
          exact hcr rfl
        rw [hne c (by omega)]
        exact hemp c (by omega)

theorem applyOp_campaignCount_le (s : PadState) (op : Op) :
    s.campaignCount ≤ (applyOp s op).campaignCount := by
  cases op with
  | create sender now name target deadline =>
    simp only [applyOp]
    cases hE : createCampaign s sender now name target deadline with
    | error e => exact le_refl _
    | ok r =>
      obtain ⟨-, -, -, -, -, -, hcnt, -⟩ :=
        createCampaign_ok_spec s sender now name target deadline r hE
      show s.campaignCount ≤ r.2.campaignCount
      omega
  | contribute sender now opr ctb amt data =>
    simp only [applyOp]
    cases hE : onConfidentialTransferReceived s sender now opr ctb amt data with
    | error e => exact le_refl _
    | ok r =>
      obtain ⟨-, -, -, -, hr⟩ := onRecv_ok_conds s sender now opr ctb amt data r hE
      subst hr
      show s.campaignCount ≤ (contribApply s sender now ctb amt data).2.campaignCount
      rw [contribApply_campaignCount]
  | settle sender cid =>
    simp only [applyOp]
    cases hE : endCampaign s sender cid with
    | error e => exact le_refl _
    | ok r =>
      obtain ⟨-, -, -, -, -, hcnt, -⟩ := endCampaign_ok_spec s sender cid r hE
      show s.campaignCount ≤ r.2.campaignCount
      omega

theorem entryVal_frame (s s2 : PadState) (cid a : Nat)
    (hh : s2.contributions cid a = s.contributions cid a)
    (hv : ∀ h, h < s.fhe.nextHandle → s2.fhe.values h = s.fhe.values h)
    (hlt : s.contributions cid a < s.fhe.nextHandle) :
    entryVal s2 cid a = entryVal s cid a := by
  unfold entryVal
  rw [hh]
  by_cases h0 : s.contributions cid a = 0 <;> simp [h0, hv _ hlt]

theorem sumAmts_cons (p : Nat × Nat) (l : List (Nat × Nat)) :
    sumAmts (p :: l) = p.2 + sumAmts l := by
  simp [sumAmts]

theorem sumOwn_cons (a : Nat) (p : Nat × Nat) (l : List (Nat × Nat)) :
    sumOwn a (p :: l) = (if p.1 = a then p.2 else 0) + sumOwn a l := by
  by_cases h : p.1 = a <;> simp [sumOwn, List.filter_cons, h]

theorem sumOwn_le_sumAmts (a : Nat) (l : List (Nat × Nat)) : sumOwn a l ≤ sumAmts l := by
  induction l with
  | nil => simp [sumOwn, sumAmts]
  | cons p l ih =>
    rw [sumOwn_cons, sumAmts_cons]
    by_cases h : p.1 = a <;> simp [h] <;> omega

theorem onRecv_ok_of (s : PadState) (sender now opr ctb amt data : Nat)
    (h1 : sender = s.paymentToken) (h2 : (s.campaigns data).creator ≠ 0)
    (h3 : (s.campaigns data).ended = false) (h4 : now ≤ (s.campaigns data).deadline) :
    onConfidentialTransferReceived s sender now opr ctb amt data
      = .ok (contribApply s sender now ctb amt data) := by
  have h4' : ¬((s.campaigns data).deadline < now) := by omega
  simp [onConfidentialTransferReceived, h1, h2, h3, h4']

theorem endCampaign_ok_of (s : PadState) (sender cid : Nat)
    (h1 : (s.campaigns cid).creator ≠ 0) (h2 : sender = (s.campaigns cid).creator)
    (h3 : (s.campaigns cid).ended = false) :
    endCampaign s sender cid =
      .ok ((confidentialTransfer (endCampaignSettle s sender cid).1 sender
             (endCampaignSettle s sender cid).2).1,
           (confidentialTransfer (endCampaignSettle s sender cid).1 sender
             (endCampaignSettle s sender cid).2).2) := by
  simp [endCampaign, h1, h2, h3]

theorem endCampaignSettle_campaigns (s : PadState) (sender cid c : Nat) :
    (endCampaignSettle s sender cid).1.campaigns c =
      if c = cid then
        { s.campaigns cid with totalRaised := s.fhe.nextHandle, ended := true }
      else s.campaigns c := rfl

theorem endCampaignSettle_zero_value (s : PadState) (sender cid : Nat) :
    (endCampaignSettle s sender cid).1.fhe.values s.fhe.nextHandle = 0 := by
  simp [endCampaignSettle, FHEState.asEuint64, FHEState.alloc, FHEState.allow]

theorem endCampaignSettle_paymentToken (s : PadState) (sender cid : Nat) :
    (endCampaignSettle s sender cid).1.paymentToken = s.paymentToken := rfl

/-- A concrete well-formed state with one open campaign (id 1, creator 5,
target handle 1 decrypting to 4, total handle 2 decrypting to 0,
deadline 200), used to instantiate the theorems below. -/
def ws1 : PadState where
  self := 10
  paymentToken := 20
  fhe :=
    { nextHandle := 3
      values := fun h => if h = 1 then 4 else 0
      acl := [(1, 10), (1, 5), (2, 10), (2, 5)] }
  campaignCount := 1
  campaigns := fun i =>
    if i = 1 then
      { name := "A", target := 1, totalRaised := 2, deadline := 200, creator := 5,
        ended := false }
    else Campaign.empty
  contributions := fun _ _ => 0
  transfers := []

theorem ws1_wf : WF ws1 := by
  refine ⟨by decide, ?_, ?_, ?_, ?_⟩
  · intro c
    by_cases hc : c = 1 <;> simp [ws1, hc, Campaign.empty]
  · intro c
    by_cases hc : c = 1 <;> simp [ws1, hc, Campaign.empty]
  · intro c a
    simp [ws1]
  · intro c hc
    have hne : c ≠ 1 := by
      simp only [ws1] at hc
      omega
    simp [ws1, hne]

/-- C10: whenever onConfidentialTransferReceived does not fail, the
encrypted boolean it returns to the Ledger decrypts to true (1): the
engine never soft-rejects a transfer via a false acceptance flag. -/
theorem c10_accept_flag_always_true (s : PadState) (sender now opr ctb amt data : Nat)
    (r : Nat × PadState)
    (h : onConfidentialTransferReceived s sender now opr ctb amt data = .ok r) :
    r.2.fhe.values r.1 = 1 := by
  obtain ⟨-, -, -, -, hr⟩ := onRecv_ok_conds s sender now opr ctb amt data r h
  subst hr
  exact contribApply_accepted_value s sender now ctb amt data

theorem c10_witness :
    ∃ r, onConfidentialTransferReceived ws1 20 150 0 7 1 1 = Except.ok r ∧
      r.2.fhe.values r.1 = 1 :=
  ⟨_, rfl, c10_accept_flag_always_true ws1 20 150 0 7 1 1 _ rfl⟩

/-- C3: onConfidentialTransferReceived fails with AuthorizationError for a
caller other than the trusted payment token, NotFoundError when the decoded
campaign id has no record (creator is the zero sentinel), AlreadyEndedError
when the campaign is ended, and ExpiredError when the current time strictly
exceeds the deadline; on every such failure the contract state is unchanged
(the failed operation leaves the state exactly as it was). -/
theorem c3_contribution_failures (s : PadState) (sender now opr ctb amt data : Nat) :
    (sender ≠ s.paymentToken →
      onConfidentialTransferReceived s sender now opr ctb amt data
          = .error .authorization ∧
      applyOp s (.contribute sender now opr ctb amt data) = s) ∧
    (sender = s.paymentToken → (s.campaigns data).creator = 0 →
      onConfidentialTransferReceived s sender now opr ctb amt data = .error .notFound ∧
      applyOp s (.contribute sender now opr ctb amt data) = s) ∧
    (sender = s.paymentToken → (s.campaigns data).creator ≠ 0 →
      (s.campaigns data).ended = true →
      onConfidentialTransferReceived s sender now opr ctb amt data = .error .alreadyEnded ∧
      applyOp s (.contribute sender now opr ctb amt data) = s) ∧
    (sender = s.paymentToken → (s.campaigns data).creator ≠ 0 →
      (s.campaigns data).ended = false → (s.campaigns data).deadline < now →
      onConfidentialTransferReceived s sender now opr ctb amt data = .error .expired ∧
      applyOp s (.contribute sender now opr ctb amt data) = s) := by
  refine ⟨fun h => ?_, fun h1 h2 => ?_, fun h1 h2 h3 => ?_, fun h1 h2 h3 h4 => ?_⟩
  · have hE := onRecv_err_token s sender now opr ctb amt data h
    exact ⟨hE, by simp [applyOp, hE]⟩
  · have hE := onRecv_err_notFound s sender now opr ctb amt data h1 h2
    exact ⟨hE, by simp [applyOp, hE]⟩
  · have hE := onRecv_err_ended s sender now opr ctb amt data h1 h2 h3
    exact ⟨hE, by simp [applyOp, hE]⟩
  · have hE := onRecv_err_expired s sender now opr ctb amt data h1 h2 h3 h4
    exact ⟨hE, by simp [applyOp, hE]⟩

theorem c3_witness :
    (21 ≠ ws1.paymentToken ∧
      onConfidentialTransferReceived ws1 21 150 0 7 1 1 = .error .authorization ∧
      applyOp ws1 (.contribute 21 150 0 7 1 1) = ws1) ∧
    ((20 : Nat) = ws1.paymentToken ∧ (ws1.campaigns 9).creator = 0 ∧
      onConfidentialTransferReceived ws1 20 150 0 7 1 9 = .error .notFound ∧
      applyOp ws1 (.contribute 20 150 0 7 1 9) = ws1) ∧
    ((20 : Nat) = ws1.paymentToken ∧ (ws1.campaigns 1).creator ≠ 0 ∧
      (ws1.campaigns 1).ended = false ∧ (ws1.campaigns 1).deadline < 300 ∧
      onConfidentialTransferReceived ws1 20 300 0 7 1 1 = .error .expired ∧
      applyOp ws1 (.contribute 20 300 0 7 1 1) = ws1) :=
  ⟨⟨by decide, (c3_contribution_failures ws1 21 150 0 7 1 1).1 (by decide)⟩,
   ⟨by decide, by decide,
     (c3_contribution_failures ws1 20 150 0 7 1 9).2.1 (by decide) (by decide)⟩,
   ⟨by decide, by decide, by decide, by decide,
     (c3_contribution_failures ws1 20 300 0 7 1 1).2.2.2 (by decide) (by decide) (by decide)
       (by decide)⟩⟩

/-- C6: createCampaign rejects an empty name, a zero target, and a deadline
not strictly in the future with a ValidationError identifying the failed
precondition, and a failed creation leaves the state (in particular the
campaign counter) unchanged. -/
theorem c6_create_validation (s : PadState) (sender now : Nat) (name : String)
    (target deadline : Nat) :
    (name.length = 0 →
      createCampaign s sender now name target deadline
          = .error (.validation "Name required") ∧
      applyOp s (.create sender now name target deadline) = s) ∧
    (name.length ≠ 0 → target = 0 →
      createCampaign s sender now name target deadline
          = .error (.validation "Target required") ∧
      applyOp s (.create sender now name target deadline) = s) ∧
    (name.length ≠ 0 → target ≠ 0 → deadline ≤ now →
      createCampaign s sender now name target deadline
          = .error (.validation "Deadline must be in the future") ∧
      applyOp s (.create sender now name target deadline) = s) := by
  refine ⟨fun h => ?_, fun h1 h2 => ?_, fun h1 h2 h3 => ?_⟩
  · have hE := createCampaign_err_name s sender now name target deadline h
    exact ⟨hE, by simp [applyOp, hE]⟩
  · have hE := createCampaign_err_target s sender now name target deadline h1 h2
    exact ⟨hE, by simp [applyOp, hE]⟩
  · have hE := createCampaign_err_deadline s sender now name target deadline h1 h2 h3
    exact ⟨hE, by simp [applyOp, hE]⟩

theorem c6_witness :
    ("".length = 0 ∧
      createCampaign ws1 5 100 "" 9 200 = .error (.validation "Name required") ∧
      applyOp ws1 (.create 5 100 "" 9 200) = ws1) ∧
    ("B".length ≠ 0 ∧ (0 : Nat) = 0 ∧
      createCampaign ws1 5 100 "B" 0 200 = .error (.validation "Target required") ∧
      applyOp ws1 (.create 5 100 "B" 0 200) = ws1) ∧
    ("B".length ≠ 0 ∧ (9 : Nat) ≠ 0 ∧ (100 : Nat) ≤ 100 ∧
      createCampaign ws1 5 100 "B" 9 100 = .error (.validation "Deadline must be in the future") ∧
      applyOp ws1 (.create 5 100 "B" 9 100) = ws1) :=
  ⟨⟨rfl, (c6_create_validation ws1 5 100 "" 9 200).1 rfl⟩,
   ⟨by decide, rfl, (c6_create_validation ws1 5 100 "B" 0 200).2.1 (by decide) rfl⟩,
   ⟨by decide, by decide, by decide,
     (c6_create_validation ws1 5 100 "B" 9 100).2.2 (by decide) (by decide) (by decide)⟩⟩

/-- C2: endCampaign succeeds exactly when the campaign exists (creator is
not the zero sentinel), the caller is its creator, and it is not already
ended — with no deadline or goal condition; the failures are NotFoundError,
AuthorizationError and AlreadyEndedError respectively, and after a success a
second endCampaign on the same id fails with AlreadyEndedError and leaves
the state (in particular the transfer log) unchanged. -/
theorem c2_endCampaign_conditions (s : PadState) (sender cid : Nat) :
    ((s.campaigns cid).creator = 0 → endCampaign s sender cid = .error .notFound) ∧
    ((s.campaigns cid).creator ≠ 0 → sender ≠ (s.campaigns cid).creator →
      endCampaign s sender cid = .error .authorization) ∧
    ((s.campaigns cid).creator ≠ 0 → sender = (s.campaigns cid).creator →
      (s.campaigns cid).ended = true → endCampaign s sender cid = .error .alreadyEnded) ∧
    ((s.campaigns cid).creator ≠ 0 → sender = (s.campaigns cid).creator →
      (s.campaigns cid).ended = false →
      ∃ r, endCampaign s sender cid = .ok r ∧
        endCampaign r.2 sender cid = .error .alreadyEnded ∧
        applyOp r.2 (.settle sender cid) = r.2) ∧
    ((∃ r, endCampaign s sender cid = .ok r) ↔
      ((s.campaigns cid).creator ≠ 0 ∧ sender = (s.campaigns cid).creator ∧
        (s.campaigns cid).ended = false)) := by
  refine ⟨fun h => endCampaign_err_notFound s sender cid h,
    fun h1 h2 => endCampaign_err_auth s sender cid h1 h2,
    fun h1 h2 h3 => endCampaign_err_ended s sender cid h1 h2 h3,
    fun h1 h2 h3 => ?_, ?_⟩
  · have hE := endCampaign_ok_of s sender cid h1 h2 h3
    refine ⟨_, hE, ?_⟩
    obtain ⟨-, -, -, -, -, -, -, -, hat, -⟩ := endCampaign_ok_spec s sender cid _ hE
    have hcr : ((confidentialTransfer (endCampaignSettle s sender cid).1 sender
        (endCampaignSettle s sender cid).2).2.campaigns cid).creator
        = (s.campaigns cid).creator := by rw [hat]
    have hend : ((confidentialTransfer (endCampaignSettle s sender cid).1 sender
        (endCampaignSettle s sender cid).2).2.campaigns cid).ended = true := by rw [hat]
    have hsecond := endCampaign_err_ended _ sender cid
      (by rw [hcr]; exact h1) (by rw [hcr]; exact h2) hend
    exact ⟨hsecond, by simp [applyOp, hsecond]⟩
  · constructor
    · rintro ⟨r, hE⟩
      obtain ⟨g1, g2, g3, -⟩ := endCampaign_ok_spec s sender cid r hE
      exact ⟨g1, g2, g3⟩
    · rintro ⟨h1, h2, h3⟩
      exact ⟨_, endCampaign_ok_of s sender cid h1 h2 h3⟩

theorem c2_witness :
    (ws1.campaigns 1).creator ≠ 0 ∧ (5 : Nat) = (ws1.campaigns 1).creator ∧
    (ws1.campaigns 1).ended = false ∧
    ∃ r, endCampaign ws1 5 1 = Except.ok r ∧
      endCampaign r.2 5 1 = .error .alreadyEnded ∧
      applyOp r.2 (.settle 5 1) = r.2 :=
  ⟨by decide, by decide, by decide,
    (c2_endCampaign_conditions ws1 5 1).2.2.2.1 (by decide) (by decide) (by decide)⟩

theorem c5_counterexample :
    endCampaign (endCampaignSettle ws1 5 1).1 6 1 = .error .authorization ∧
    Err.authorization ≠ Err.alreadyEnded :=
  ⟨rfl, by decide⟩

/-- C5 (amended): in endCampaign the ended flag is set and totalRaised is
reset to an encrypted zero strictly before the outbound ledger transfer is
invoked, so in the state the transfer (and hence any re-entrant call) sees,
the campaign is already ended with a zero total: a re-entrant endCampaign by
the creator fails with AlreadyEndedError, a re-entrant endCampaign by any
other caller fails with AuthorizationError (the creator check precedes the
ended check), and a re-entrant onConfidentialTransferReceived from the
ledger fails with AlreadyEndedError; no re-entrant call observes the
pre-settlement state. -/
theorem c5_settle_before_transfer (s : PadState) (sender cid : Nat)
    (h1 : (s.campaigns cid).creator ≠ 0) (h2 : sender = (s.campaigns cid).creator)
    (h3 : (s.campaigns cid).ended = false) :
    endCampaign s sender cid =
      .ok ((confidentialTransfer (endCampaignSettle s sender cid).1 sender
             (endCampaignSettle s sender cid).2).1,
           (confidentialTransfer (endCampaignSettle s sender cid).1 sender
             (endCampaignSettle s sender cid).2).2) ∧
    ((endCampaignSettle s sender cid).1.campaigns cid).ended = true ∧
    valOf (endCampaignSettle s sender cid).1
        ((endCampaignSettle s sender cid).1.campaigns cid).totalRaised = 0 ∧
    endCampaign (endCampaignSettle s sender cid).1 sender cid = .error .alreadyEnded ∧
    (∀ x, x ≠ (s.campaigns cid).creator →
      endCampaign (endCampaignSettle s sender cid).1 x cid = .error .authorization) ∧
    (∀ t opr ctb amt,
      onConfidentialTransferReceived (endCampaignSettle s sender cid).1
          (endCampaignSettle s sender cid).1.paymentToken t opr ctb amt cid
        = .error .alreadyEnded) := by
  have hcr : ((endCampaignSettle s sender cid).1.campaigns cid).creator
      = (s.campaigns cid).creator := by
    rw [endCampaignSettle_campaigns]
    simp
  have hend : ((endCampaignSettle s sender cid).1.campaigns cid).ended = true := by
    rw [endCampaignSettle_campaigns]
    simp
  refine ⟨endCampaign_ok_of s sender cid h1 h2 h3, hend, ?_, ?_, ?_, ?_⟩
  · have htot : ((endCampaignSettle s sender cid).1.campaigns cid).totalRaised
        = s.fhe.nextHandle := by
      rw [endCampaignSettle_campaigns]
      simp
    rw [valOf, htot]
    exact endCampaignSettle_zero_value s sender cid
  · exact endCampaign_err_ended _ sender cid (by rw [hcr]; exact h1) (by rw [hcr]; exact h2)
      hend
  · intro x hx
    exact endCampaign_err_auth _ x cid (by rw [hcr]; exact h1) (by rw [hcr]; exact hx)
  · intro t opr ctb amt
    exact onRecv_err_ended _ _ t opr ctb amt cid rfl (by rw [hcr]; exact h1) hend

theorem c5_witness :
    ((endCampaignSettle ws1 5 1).1.campaigns 1).ended = true ∧
    endCampaign (endCampaignSettle ws1 5 1).1 5 1 = .error .alreadyEnded ∧
    onConfidentialTransferReceived (endCampaignSettle ws1 5 1).1
        (endCampaignSettle ws1 5 1).1.paymentToken 150 0 7 1 1 = .error .alreadyEnded :=
  ⟨(c5_settle_before_transfer ws1 5 1 (by decide) (by decide) (by decide)).2.1,
   (c5_settle_before_transfer ws1 5 1 (by decide) (by decide) (by decide)).2.2.2.1,
   (c5_settle_before_transfer ws1 5 1 (by decide) (by decide) (by decide)).2.2.2.2.2
     150 0 7 1⟩

theorem createdIds_spec (l : List Op) : ∀ s : PadState,
    List.Pairwise (· < ·) (createdIds s l) ∧
    ∀ i ∈ createdIds s l, s.campaignCount < i := by
  induction l with
  | nil => intro s; simp [createdIds]
  | cons op l ih =>
    intro s
    cases op with
    | create sender now name target deadline =>
      simp only [createdIds]
      cases hE : createCampaign s sender now name target deadline with
      | error e => exact ih s
      | ok r =>
        obtain ⟨-, -, -, hid, -, -, hcnt, -⟩ :=
          createCampaign_ok_spec s sender now name target deadline r hE
        obtain ⟨hpw, hbd⟩ := ih r.2
        constructor
        · exact List.Pairwise.cons (fun i hi => by have := hbd i hi; omega) hpw
        · intro i hi
          rcases List.mem_cons.mp hi with h | h
          · omega
          · have := hbd i h
            omega
    | contribute sender now opr ctb amt data =>
      have hle := applyOp_campaignCount_le s (.contribute sender now opr ctb amt data)
      obtain ⟨hpw, hbd⟩ := ih (applyOp s (.contribute sender now opr ctb amt data))
      exact ⟨hpw, fun i hi => by have := hbd i hi; omega⟩
    | settle sender cid =>
      have hle := applyOp_campaignCount_le s (.settle sender cid)
      obtain ⟨hpw, hbd⟩ := ih (applyOp s (.settle sender cid))
      exact ⟨hpw, fun i hi => by have := hbd i hi; omega⟩

/-- C7: along any operation sequence the ids returned by successful
creations are strictly increasing (hence never reused) and all exceed the
starting campaign counter (so from a fresh deployment, where the counter is
zero, ids are 1-based and id 0 is never assigned); each successful creation
returns exactly counter + 1. -/
theorem c7_ids_strictly_increasing (s : PadState) (l : List Op) :
    List.Pairwise (· < ·) (createdIds s l) ∧
    (∀ i ∈ createdIds s l, s.campaignCount < i) ∧
    (∀ sender now name target deadline r,
      createCampaign s sender now name target deadline = .ok r →
      r.1 = s.campaignCount + 1) := by
  obtain ⟨hpw, hbd⟩ := createdIds_spec l s
  exact ⟨hpw, hbd, fun sender now name target deadline r h =>
    (createCampaign_ok_spec s sender now name target deadline r h).2.2.2.1⟩

theorem c7_witness : ws1.campaignCount < 2 :=
  (c7_ids_strictly_increasing ws1 [Op.create 5 100 "B" 9 200]).2.1 2 (by decide)

/-- C8: every successful mutation grants the matching decrypt permissions —
creation grants the creator and the engine access to the stored target and
the initial zero total; a contribution grants the engine, the campaign
creator and the contributor access to the updated aggregate and the engine
and the contributor access to the updated per-contributor entry (and the
ledger access to the acceptance flag); settlement grants the engine and the
creator access to the captured payout handle; and no operation ever removes
an existing grant. -/
theorem c8_permission_grants (s : PadState) :
    (∀ sender now name target deadline r,
      createCampaign s sender now name target deadline = .ok r →
      ((r.2.campaigns r.1).target, s.self) ∈ r.2.fhe.acl ∧
      ((r.2.campaigns r.1).target, sender) ∈ r.2.fhe.acl ∧
      ((r.2.campaigns r.1).totalRaised, s.self) ∈ r.2.fhe.acl ∧
      ((r.2.campaigns r.1).totalRaised, sender) ∈ r.2.fhe.acl) ∧
    (∀ sender now opr ctb amt data r,
      onConfidentialTransferReceived s sender now opr ctb amt data = .ok r →
      ((r.2.campaigns data).totalRaised, s.self) ∈ r.2.fhe.acl ∧
      ((r.2.campaigns data).totalRaised, (s.campaigns data).creator) ∈ r.2.fhe.acl ∧
      ((r.2.campaigns data).totalRaised, ctb) ∈ r.2.fhe.acl ∧
      (r.2.contributions data ctb, s.self) ∈ r.2.fhe.acl ∧
      (r.2.contributions data ctb, ctb) ∈ r.2.fhe.acl ∧
      (r.1, s.self) ∈ r.2.fhe.acl ∧ (r.1, sender) ∈ r.2.fhe.acl) ∧
    (∀ sender cid r, endCampaign s sender cid = .ok r →
      ((s.campaigns cid).totalRaised, s.self) ∈ r.2.fhe.acl ∧
      ((s.campaigns cid).totalRaised, sender) ∈ r.2.fhe.acl) ∧
    (∀ op g, g ∈ s.fhe.acl → g ∈ (applyOp s op).fhe.acl) := by
  refine ⟨?_, ?_, ?_, ?_⟩
  · intro sender now name target deadline r h
    obtain ⟨-, -, -, hid, -, -, -, -, -, -, hat, -, -, -, -, -, m1, m2, m3, m4⟩ :=
      createCampaign_ok_spec s sender now name target deadline r h
    rw [hid, hat]
    exact ⟨m1, m2, m3, m4⟩
  · intro sender now opr ctb amt data r h
    obtain ⟨-, -, -, -, hr⟩ := onRecv_ok_conds s sender now opr ctb amt data r h
    subst hr
    obtain ⟨m1, m2, m3, m4, m5, m6, m7⟩ := contribApply_acl_mem s sender now ctb amt data
    have hcamp : ((contribApply s sender now ctb amt data).2.campaigns data).totalRaised
        = s.fhe.nextHandle := by
      rw [contribApply_campaigns, if_pos rfl]
    rw [hcamp]
    exact ⟨m1, m2, m3, m4, m5, m6, m7⟩
  · intro sender cid r h
    obtain ⟨-, -, -, -, -, -, -, -, -, -, -, -, -, -, -, m1, m2⟩ :=
      endCampaign_ok_spec s sender cid r h
    exact ⟨m1, m2⟩
  · intro op g hg
    cases op with
    | create sender now name target deadline =>
      simp only [applyOp]
      cases hE : createCampaign s sender now name target deadline with
      | error e => exact hg
      | ok r =>
        obtain ⟨-, -, -, -, -, -, -, -, -, -, -, -, -, -, -, hmono, -⟩ :=
          createCampaign_ok_spec s sender now name target deadline r hE
        exact hmono g hg
    | contribute sender now opr ctb amt data =>
      simp only [applyOp]
      cases hE : onConfidentialTransferReceived s sender now opr ctb amt data with
      | error e => exact hg
      | ok r =>
        obtain ⟨-, -, -, -, hr⟩ := onRecv_ok_conds s sender now opr ctb amt data r hE
        subst hr
        exact contribApply_acl_mono s sender now ctb amt data g hg
    | settle sender cid =>
      simp only [applyOp]
      cases hE : endCampaign s sender cid with
      | error e => exact hg
      | ok r =>
        obtain ⟨-, -, -, -, -, -, -, -, -, -, -, -, -, -, hmono, -⟩ :=
          endCampaign_ok_spec s sender cid r hE
        exact hmono g hg

theorem c8_witness :
    ∃ r, createCampaign ws1 5 100 "B" 9 200 = Except.ok r ∧
      (((r.2.campaigns r.1).target, ws1.self) ∈ r.2.fhe.acl ∧
       ((r.2.campaigns r.1).target, 5) ∈ r.2.fhe.acl ∧
       ((r.2.campaigns r.1).totalRaised, ws1.self) ∈ r.2.fhe.acl ∧
       ((r.2.campaigns r.1).totalRaised, 5) ∈ r.2.fhe.acl) :=
  ⟨_, rfl, (c8_permission_grants ws1).1 5 100 "B" 9 200 _ rfl⟩

/-- C9: per-contributor entries change only when that contributor's own
contribution is accepted (by homomorphic addition of the amount) and are
never reset; a successful endCampaign leaves the contribution table, the
campaign's name, target, deadline and creator fields, and every other
campaign's record unchanged. -/
theorem c9_entries_persist (s : PadState) (hWF : WF s) :
    (∀ op cid a,
      entryVal (applyOp s op) cid a = entryVal s cid a ∨
      ∃ sender now opr amt r, op = Op.contribute sender now opr a amt cid ∧
        onConfidentialTransferReceived s sender now opr a amt cid = .ok r) ∧
    (∀ sender now opr ctb amt data r,
      onConfidentialTransferReceived s sender now opr ctb amt data = .ok r →
      amt < s.fhe.nextHandle →
      entryVal r.2 data ctb = (entryVal s data ctb + valOf s amt) % U64 ∧
      ∀ c a, ¬(c = data ∧ a = ctb) → entryVal r.2 c a = entryVal s c a) ∧
    (∀ sender cid r, endCampaign s sender cid = .ok r →
      r.2.contributions = s.contributions ∧
      (∀ c a, entryVal r.2 c a = entryVal s c a) ∧
      (r.2.campaigns cid).name = (s.campaigns cid).name ∧
      (r.2.campaigns cid).target = (s.campaigns cid).target ∧
      (r.2.campaigns cid).deadline = (s.campaigns cid).deadline ∧
      (r.2.campaigns cid).creator = (s.campaigns cid).creator ∧
      (∀ c, c ≠ cid → r.2.campaigns c = s.campaigns c)) := by
  obtain ⟨h0, htar, htot, hcon, hemp⟩ := hWF
  refine ⟨?_, ?_, ?_⟩
  · intro op cid a
    cases op with
    | create sender now name target deadline =>
      left
      simp only [applyOp]
      cases hE : createCampaign s sender now name target deadline with
      | error e => rfl
      | ok r =>
        obtain ⟨-, -, -, -, -, -, -, -, hcontr, -, -, -, hvlt, -⟩ :=
          createCampaign_ok_spec s sender now name target deadline r hE
        exact entryVal_frame s r.2 cid a (by rw [hcontr]) hvlt (hcon cid a)
    | contribute sender now opr ctb amt data =>
      simp only [applyOp]
      cases hE : onConfidentialTransferReceived s sender now opr ctb amt data with
      | error e => exact Or.inl rfl
      | ok r =>
        obtain ⟨-, -, -, -, hr⟩ := onRecv_ok_conds s sender now opr ctb amt data r hE
        subst hr
        by_cases hca : cid = data ∧ a = ctb
        · right
          refine ⟨sender, now, opr, amt, contribApply s sender now ctb amt data, ?_, ?_⟩
          · rw [hca.1, hca.2]
          · rw [hca.1, hca.2]
            exact hE
        · left
          exact entryVal_frame s (contribApply s sender now ctb amt data).2 cid a
            (contribApply_contributions_ne s sender now ctb amt data cid a hca)
            (fun h hh => contribApply_values_lt s sender now ctb amt data h hh)
            (hcon cid a)
    | settle sender cid2 =>
      left
      simp only [applyOp]
      cases hE : endCampaign s sender cid2 with
      | error e => rfl
      | ok r =>
        obtain ⟨-, -, -, -, -, -, hcontr, -, -, -, hvlt, -⟩ :=
          endCampaign_ok_spec s sender cid2 r hE
        exact entryVal_frame s r.2 cid a (by rw [hcontr]) hvlt (hcon cid a)
  · intro sender now opr ctb amt data r hE hamt
    obtain ⟨-, -, -, -, hr⟩ := onRecv_ok_conds s sender now opr ctb amt data r hE
    subst hr
    obtain ⟨-, -, hval⟩ := contribApply_entry s sender now ctb amt data hamt (hcon data ctb)
    refine ⟨?_, ?_⟩
    · rw [entryVal]
      rw [if_neg (contribApply_entry_lt s sender now ctb amt data).1]
      exact hval
    · intro c a hne
      exact entryVal_frame s (contribApply s sender now ctb amt data).2 c a
        (contribApply_contributions_ne s sender now ctb amt data c a hne)
        (fun h hh => contribApply_values_lt s sender now ctb amt data h hh)
        (hcon c a)
  · intro sender cid r hE
    obtain ⟨-, -, -, -, -, -, hcontr, hne, hat, -, hvlt, -⟩ :=
      endCampaign_ok_spec s sender cid r hE
    refine ⟨hcontr, ?_, by rw [hat], by rw [hat], by rw [hat], by rw [hat], hne⟩
    intro c a
    exact entryVal_frame s r.2 c a (by rw [hcontr]) hvlt (hcon c a)

theorem c9_witness :
    ∃ r, endCampaign ws1 5 1 = Except.ok r ∧
      (r.2.contributions = ws1.contributions ∧
       (r.2.campaigns 1).name = (ws1.campaigns 1).name ∧
       (r.2.campaigns 1).creator = (ws1.campaigns 1).creator) :=
  ⟨_, rfl,
    ⟨((c9_entries_persist ws1 ws1_wf).2.2 5 1 _ rfl).1,
     ((c9_entries_persist ws1 ws1_wf).2.2 5 1 _ rfl).2.2.1,
     ((c9_entries_persist ws1 ws1_wf).2.2 5 1 _ rfl).2.2.2.2.2.1⟩⟩

/-- C4: the ended flag never goes back from true to false; it becomes true
only through the (single possible) successful endCampaign by the creator on
a not-yet-ended campaign; and an existing campaign's decrypted totalRaised
changes only at that settlement (where it is reset to zero together with
the flag) or at an accepted contribution (where the amount is added
homomorphically modulo 2^64). -/
theorem c4_flag_and_total_transitions (s : PadState) (op : Op) (cid : Nat) (hWF : WF s) :
    ((s.campaigns cid).ended = true → ((applyOp s op).campaigns cid).ended = true) ∧
    (((applyOp s op).campaigns cid).ended = true → (s.campaigns cid).ended = false →
      ∃ r, op = Op.settle (s.campaigns cid).creator cid ∧
        endCampaign s (s.campaigns cid).creator cid = .ok r) ∧
    ((s.campaigns cid).creator ≠ 0 →
      (valOf (applyOp s op) ((applyOp s op).campaigns cid).totalRaised
          = valOf s (s.campaigns cid).totalRaised ∨
       (∃ sender r, op = Op.settle sender cid ∧ endCampaign s sender cid = .ok r ∧
         (s.campaigns cid).ended = false ∧
         ((applyOp s op).campaigns cid).ended = true ∧
         valOf (applyOp s op) ((applyOp s op).campaigns cid).totalRaised = 0) ∨
       (∃ sender now opr ctb amt r, op = Op.contribute sender now opr ctb amt cid ∧
         onConfidentialTransferReceived s sender now opr ctb amt cid = .ok r ∧
         ((applyOp s op).campaigns cid).ended = (s.campaigns cid).ended ∧
         valOf (applyOp s op) ((applyOp s op).campaigns cid).totalRaised
           = (valOf s (s.campaigns cid).totalRaised + valOf s amt) % U64))) := by
  obtain ⟨h0, htar, htot, hcon, hemp⟩ := hWF
  cases op with
  | create sender now name target deadline =>
    cases hE : createCampaign s sender now name target deadline with
    | error e =>
      have hA : applyOp s (.create sender now name target deadline) = s := by
        simp [applyOp, hE]
      rw [hA]
      refine ⟨fun h => h, fun h1 h2 => ?_, fun hcr => Or.inl rfl⟩
      rw [h1] at h2
      simp at h2
    | ok r =>
      have hA : applyOp s (.create sender now name target deadline) = r.2 := by
        simp [applyOp, hE]
      rw [hA]
      obtain ⟨-, -, -, -, -, -, -, -, -, hne, hat, -, hvlt, -⟩ :=
        createCampaign_ok_spec s sender now name target deadline r hE
      refine ⟨?_, ?_, ?_⟩
      · intro h
        by_cases hc : cid = s.campaignCount + 1
        · have hemp2 := hemp cid (by omega)
          rw [hemp2] at h
          simp [Campaign.empty] at h
        · rw [hne cid hc]
          exact h
      · intro h1 h2
        by_cases hc : cid = s.campaignCount + 1
        · rw [hc, hat] at h1
          simp at h1
        · rw [hne cid hc] at h1
          rw [h1] at h2
          simp at h2
      · intro hcr
        left
        have hc : cid ≠ s.campaignCount + 1 := by
          have := WF_cid_le s cid ⟨h0, htar, htot, hcon, hemp⟩ hcr
          omega
        rw [hne cid hc, valOf, valOf, hvlt _ (htot cid)]
  | contribute sender now opr ctb amt data =>
    cases hE : onConfidentialTransferReceived s sender now opr ctb amt data with
    | error e =>
      have hA : applyOp s (.contribute sender now opr ctb amt data) = s := by
        simp [applyOp, hE]
      rw [hA]
      refine ⟨fun h => h, fun h1 h2 => ?_, fun hcr => Or.inl rfl⟩
      rw [h1] at h2
      simp at h2
    | ok r =>
      obtain ⟨-, -, hen, -, hr⟩ := onRecv_ok_conds s sender now opr ctb amt data r hE
      subst hr
      have hA : applyOp s (.contribute sender now opr ctb amt data)
          = (contribApply s sender now ctb amt data).2 := by
        simp [applyOp, hE]
      rw [hA]
      have hendpres : ∀ c, ((contribApply s sender now ctb amt data).2.campaigns c).ended
          = (s.campaigns c).ended := by
        intro c
        rw [contribApply_campaigns]
        by_cases hc : c = data
        · rw [if_pos hc, hc]
        · rw [if_neg hc]
      refine ⟨?_, ?_, ?_⟩
      · intro h
        rw [hendpres cid]
        exact h
      · intro h1 h2
        rw [hendpres cid] at h1
        rw [h1] at h2
        simp at h2
      · intro hcr
        by_cases hc : cid = data
        · right; right
          refine ⟨sender, now, opr, ctb, amt, contribApply s sender now ctb amt data,
            by rw [hc], by rw [hc]; exact hE, hendpres cid, ?_⟩
          have hcamp : ((contribApply s sender now ctb amt data).2.campaigns data).totalRaised
              = s.fhe.nextHandle := by
            rw [contribApply_campaigns, if_pos rfl]
          rw [hc, valOf, valOf, valOf, hcamp, contribApply_total_value]
        · left
          rw [contribApply_campaigns, if_neg hc, valOf, valOf,
            contribApply_values_lt s sender now ctb amt data _ (htot cid)]
  | settle sender cid2 =>
    cases hE : endCampaign s sender cid2 with
    | error e =>
      have hA : applyOp s (.settle sender cid2) = s := by
        simp [applyOp, hE]
      rw [hA]
      refine ⟨fun h => h, fun h1 h2 => ?_, fun hcr => Or.inl rfl⟩
      rw [h1] at h2
      simp at h2
    | ok r =>
      have hA : applyOp s (.settle sender cid2) = r.2 := by
        simp [applyOp, hE]
      rw [hA]
      obtain ⟨hcr2, hsc, hen2, -, -, -, -, hne, hat, -, hvlt, hv0, -⟩ :=
        endCampaign_ok_spec s sender cid2 r hE
      refine ⟨?_, ?_, ?_⟩
      · intro h
        by_cases hc : cid = cid2
        · rw [hc, hat]
        · rw [hne cid hc]
          exact h
      · intro h1 h2
        by_cases hc : cid = cid2
        · refine ⟨r, ?_, ?_⟩
          · rw [hc, ← hsc]
          · rw [hc, ← hsc]
            exact hE
        · rw [hne cid hc] at h1
          rw [h1] at h2
          simp at h2
      · intro hcr
        by_cases hc : cid = cid2
        · right; left
          refine ⟨sender, r, by rw [hc], by rw [hc]; exact hE, by rw [hc]; exact hen2,
            by rw [hc, hat], ?_⟩
          have hcamp : (r.2.campaigns cid2).totalRaised = s.fhe.nextHandle := by
            rw [hat]
          rw [hc, valOf, hcamp]
          exact hv0
        · left
          rw [hne cid hc, valOf, valOf, hvlt _ (htot cid)]

theorem c4_witness :
    (ws1.campaigns 1).creator ≠ 0 ∧
    ((ws1.campaigns 1).ended = false → ((applyOp ws1 (.settle 5 1)).campaigns 1).ended = true →
      True) ∧
    (valOf (applyOp ws1 (.settle 5 1)) ((applyOp ws1 (.settle 5 1)).campaigns 1).totalRaised
        = valOf ws1 (ws1.campaigns 1).totalRaised ∨
     (∃ sender r, Op.settle 5 1 = Op.settle sender 1 ∧ endCampaign ws1 sender 1 = .ok r ∧
       (ws1.campaigns 1).ended = false ∧
       ((applyOp ws1 (.settle 5 1)).campaigns 1).ended = true ∧
       valOf (applyOp ws1 (.settle 5 1)) ((applyOp ws1 (.settle 5 1)).campaigns 1).totalRaised
         = 0) ∨
     (∃ sender now opr ctb amt r, Op.settle 5 1 = Op.contribute sender now opr ctb amt 1 ∧
       onConfidentialTransferReceived ws1 sender now opr ctb amt 1 = .ok r ∧
       ((applyOp ws1 (.settle 5 1)).campaigns 1).ended = (ws1.campaigns 1).ended ∧
       valOf (applyOp ws1 (.settle 5 1)) ((applyOp ws1 (.settle 5 1)).campaigns 1).totalRaised
         = (valOf ws1 (ws1.campaigns 1).totalRaised + valOf ws1 amt) % U64)) :=
  ⟨by decide, fun _ _ => trivial,
    (c4_flag_and_total_transitions ws1 (.settle 5 1) 1 ws1_wf).2.2 (by decide)⟩

theorem contribStep_spec (s : PadState) (now cid : Nat) (p : Nat × Nat)
    (hWF : WF s) (hc : (s.campaigns cid).creator ≠ 0)
    (he : (s.campaigns cid).ended = false) (hd : now ≤ (s.campaigns cid).deadline) :
    onConfidentialTransferReceived { s with fhe := (s.fhe.asEuint64 p.2).2 }
        ({ s with fhe := (s.fhe.asEuint64 p.2).2 } : PadState).paymentToken now 0 p.1
        (s.fhe.asEuint64 p.2).1 cid
      = .ok (contribApply { s with fhe := (s.fhe.asEuint64 p.2).2 }
          ({ s with fhe := (s.fhe.asEuint64 p.2).2 } : PadState).paymentToken now p.1
          (s.fhe.asEuint64 p.2).1 cid) ∧
    WF (contribApply { s with fhe := (s.fhe.asEuint64 p.2).2 }
        ({ s with fhe := (s.fhe.asEuint64 p.2).2 } : PadState).paymentToken now p.1
        (s.fhe.asEuint64 p.2).1 cid).2 ∧
    ((contribApply { s with fhe := (s.fhe.asEuint64 p.2).2 }
        ({ s with fhe := (s.fhe.asEuint64 p.2).2 } : PadState).paymentToken now p.1
        (s.fhe.asEuint64 p.2).1 cid).2.campaigns cid).creator = (s.campaigns cid).creator ∧
    ((contribApply { s with fhe := (s.fhe.asEuint64 p.2).2 }
        ({ s with fhe := (s.fhe.asEuint64 p.2).2 } : PadState).paymentToken now p.1
        (s.fhe.asEuint64 p.2).1 cid).2.campaigns cid).ended = false ∧
    ((contribApply { s with fhe := (s.fhe.asEuint64 p.2).2 }
        ({ s with fhe := (s.fhe.asEuint64 p.2).2 } : PadState).paymentToken now p.1
        (s.fhe.asEuint64 p.2).1 cid).2.campaigns cid).deadline
      = (s.campaigns cid).deadline ∧
    valOf (contribApply { s with fhe := (s.fhe.asEuint64 p.2).2 }
        ({ s with fhe := (s.fhe.asEuint64 p.2).2 } : PadState).paymentToken now p.1
        (s.fhe.asEuint64 p.2).1 cid).2
        ((contribApply { s with fhe := (s.fhe.asEuint64 p.2).2 }
          ({ s with fhe := (s.fhe.asEuint64 p.2).2 } : PadState).paymentToken now p.1
          (s.fhe.asEuint64 p.2).1 cid).2.campaigns cid).totalRaised
      = (valOf s (s.campaigns cid).totalRaised + p.2) % U64 ∧
    (∀ a, p.1 = a →
      entryVal (contribApply { s with fhe := (s.fhe.asEuint64 p.2).2 }
          ({ s with fhe := (s.fhe.asEuint64 p.2).2 } : PadState).paymentToken now p.1
          (s.fhe.asEuint64 p.2).1 cid).2 cid a
        = (entryVal s cid a + p.2) % U64) ∧
    (∀ a, p.1 ≠ a →
      entryVal (contribApply { s with fhe := (s.fhe.asEuint64 p.2).2 }
          ({ s with fhe := (s.fhe.asEuint64 p.2).2 } : PadState).paymentToken now p.1
          (s.fhe.asEuint64 p.2).1 cid).2 cid a
        = entryVal s cid a) := by
  obtain ⟨h0, htar, htot, hcon, hemp⟩ := hWF
  have hqv_lt : ∀ h, h < s.fhe.nextHandle →
      (s.fhe.asEuint64 p.2).2.values h = s.fhe.values h :=
    fun h hh => FHEState.alloc_values_lt s.fhe p.2 h hh
  have hqv_self : (s.fhe.asEuint64 p.2).2.values s.fhe.nextHandle = p.2 % U64 :=
    FHEState.alloc_values_self s.fhe p.2
  have hWF1 : WF { s with fhe := (s.fhe.asEuint64 p.2).2 } := by
    refine ⟨?_, fun c => ?_, fun c => ?_, fun c a => ?_, fun c hgt => ?_⟩
    · show 0 < s.fhe.nextHandle + 1
      omega
    · show (s.campaigns c).target < s.fhe.nextHandle + 1
      have := htar c
      omega
    · show (s.campaigns c).totalRaised < s.fhe.nextHandle + 1
      have := htot c
      omega
    · show s.contributions c a < s.fhe.nextHandle + 1
      have := hcon c a
      omega
    · exact hemp c hgt
  have hok := onRecv_ok_of { s with fhe := (s.fhe.asEuint64 p.2).2 }
    ({ s with fhe := (s.fhe.asEuint64 p.2).2 } : PadState).paymentToken now 0 p.1
    (s.fhe.asEuint64 p.2).1 cid rfl hc he hd
  have hA : applyOp { s with fhe := (s.fhe.asEuint64 p.2).2 }
      (.contribute ({ s with fhe := (s.fhe.asEuint64 p.2).2 } : PadState).paymentToken now 0
        p.1 (s.fhe.asEuint64 p.2).1 cid)
      = (contribApply { s with fhe := (s.fhe.asEuint64 p.2).2 }
          ({ s with fhe := (s.fhe.asEuint64 p.2).2 } : PadState).paymentToken now p.1
          (s.fhe.asEuint64 p.2).1 cid).2 := by
    simp [applyOp, hok]
  have hWF2 : WF (contribApply { s with fhe := (s.fhe.asEuint64 p.2).2 }
      ({ s with fhe := (s.fhe.asEuint64 p.2).2 } : PadState).paymentToken now p.1
      (s.fhe.asEuint64 p.2).1 cid).2 := by
    have := WF_applyOp { s with fhe := (s.fhe.asEuint64 p.2).2 }
      (.contribute ({ s with fhe := (s.fhe.asEuint64 p.2).2 } : PadState).paymentToken now 0
        p.1 (s.fhe.asEuint64 p.2).1 cid) hWF1
    rwa [hA] at this
  have hcamp : ∀ c, (contribApply { s with fhe := (s.fhe.asEuint64 p.2).2 }
      ({ s with fhe := (s.fhe.asEuint64 p.2).2 } : PadState).paymentToken now p.1
      (s.fhe.asEuint64 p.2).1 cid).2.campaigns c
      = if c = cid then
          { s.campaigns cid with totalRaised := s.fhe.nextHandle + 1 }
        else s.campaigns c := by
    intro c
    exact contribApply_campaigns _ _ _ _ _ _ c
  refine ⟨hok, hWF2, ?_, ?_, ?_, ?_, ?_, ?_⟩
  · rw [hcamp cid, if_pos rfl]
  · rw [hcamp cid, if_pos rfl]
    exact he
  · rw [hcamp cid, if_pos rfl]
  · have htotv := contribApply_total_value { s with fhe := (s.fhe.asEuint64 p.2).2 }
      ({ s with fhe := (s.fhe.asEuint64 p.2).2 } : PadState).paymentToken now p.1
      (s.fhe.asEuint64 p.2).1 cid
    have hcamp2 : ((contribApply { s with fhe := (s.fhe.asEuint64 p.2).2 }
        ({ s with fhe := (s.fhe.asEuint64 p.2).2 } : PadState).paymentToken now p.1
        (s.fhe.asEuint64 p.2).1 cid).2.campaigns cid).totalRaised
        = s.fhe.nextHandle + 1 := by
      rw [hcamp cid, if_pos rfl]
    rw [valOf, hcamp2]
    have htotv2 : (contribApply { s with fhe := (s.fhe.asEuint64 p.2).2 }
        ({ s with fhe := (s.fhe.asEuint64 p.2).2 } : PadState).paymentToken now p.1
        (s.fhe.asEuint64 p.2).1 cid).2.fhe.values (s.fhe.nextHandle + 1)
        = ((s.fhe.asEuint64 p.2).2.values (s.campaigns cid).totalRaised +
            (s.fhe.asEuint64 p.2).2.values (s.fhe.asEuint64 p.2).1) % U64 := htotv
    rw [htotv2, hqv_lt _ (htot cid)]
    have : (s.fhe.asEuint64 p.2).2.values (s.fhe.asEuint64 p.2).1 = p.2 % U64 := hqv_self
    rw [this, valOf]
    simp only [U64]
    omega
  · intro a ha
    subst ha
    obtain ⟨hne0, -, hval⟩ := contribApply_entry { s with fhe := (s.fhe.asEuint64 p.2).2 }
      ({ s with fhe := (s.fhe.asEuint64 p.2).2 } : PadState).paymentToken now p.1
      (s.fhe.asEuint64 p.2).1 cid
      (by show s.fhe.nextHandle < s.fhe.nextHandle + 1; omega)
      (by show s.contributions cid p.1 < s.fhe.nextHandle + 1
          have := hcon cid p.1
          omega)
    rw [entryVal, if_neg hne0, hval]
    have hev : entryVal { s with fhe := (s.fhe.asEuint64 p.2).2 } cid p.1
        = entryVal s cid p.1 :=
      entryVal_frame s { s with fhe := (s.fhe.asEuint64 p.2).2 } cid p.1 rfl hqv_lt
        (hcon cid p.1)
    have hamtv : ({ s with fhe := (s.fhe.asEuint64 p.2).2 } : PadState).fhe.values
        (s.fhe.asEuint64 p.2).1 = p.2 % U64 := hqv_self
    rw [hev, hamtv]
    simp only [U64]
    omega
  · intro a ha
    have h1 : entryVal (contribApply { s with fhe := (s.fhe.asEuint64 p.2).2 }
        ({ s with fhe := (s.fhe.asEuint64 p.2).2 } : PadState).paymentToken now p.1
        (s.fhe.asEuint64 p.2).1 cid).2 cid a
        = entryVal { s with fhe := (s.fhe.asEuint64 p.2).2 } cid a := by
      refine entryVal_frame _ _ cid a ?_ ?_ ?_
      · exact contribApply_contributions_ne _ _ _ _ _ _ cid a (fun hp => ha hp.2.symm)
      · intro h hh
        exact contribApply_values_lt _ _ _ _ _ _ h hh
      · show s.contributions cid a < s.fhe.nextHandle + 1
        have := hcon cid a
        omega
    rw [h1]
    exact entryVal_frame s { s with fhe := (s.fhe.asEuint64 p.2).2 } cid a rfl hqv_lt
      (hcon cid a)

theorem runContribs_cons (now cid : Nat) (s : PadState) (p : Nat × Nat)
    (l : List (Nat × Nat)) :
    runContribs now cid s (p :: l) =
      match onConfidentialTransferReceived { s with fhe := (s.fhe.asEuint64 p.2).2 }
          ({ s with fhe := (s.fhe.asEuint64 p.2).2 } : PadState).paymentToken now 0 p.1
          (s.fhe.asEuint64 p.2).1 cid with
      | .ok r => runContribs now cid r.2 l
      | .error e => .error e := rfl

theorem runContribs_spec (now cid : Nat) (l : List (Nat × Nat)) : ∀ s : PadState,
    WF s → (s.campaigns cid).creator ≠ 0 → (s.campaigns cid).ended = false →
    now ≤ (s.campaigns cid).deadline →
    valOf s (s.campaigns cid).totalRaised < U64 →
    (∀ a, entryVal s cid a < U64) →
    ∃ s2, runContribs now cid s l = .ok s2 ∧ WF s2 ∧
      (s2.campaigns cid).creator = (s.campaigns cid).creator ∧
      (s2.campaigns cid).ended = false ∧
      (s2.campaigns cid).deadline = (s.campaigns cid).deadline ∧
      valOf s2 (s2.campaigns cid).totalRaised
        = (valOf s (s.campaigns cid).totalRaised + sumAmts l) % U64 ∧
      ∀ a, entryVal s2 cid a = (entryVal s cid a + sumOwn a l) % U64 := by
  induction l with
  | nil =>
    intro s hWF hc he hd htlt helt
    refine ⟨s, rfl, hWF, rfl, he, rfl, ?_, ?_⟩
    · have h1 : sumAmts ([] : List (Nat × Nat)) = 0 := rfl
      rw [h1]
      simp only [U64] at htlt ⊢
      omega
    · intro a
      have h1 : sumOwn a ([] : List (Nat × Nat)) = 0 := rfl
      rw [h1]
      have := helt a
      simp only [U64] at this ⊢
      omega
  | cons p l ih =>
    intro s hWF hc he hd htlt helt
    obtain ⟨hok, hWF2, hcr2, hen2, hdl2, htotv, hown, hoth⟩ :=
      contribStep_spec s now cid p hWF hc he hd
    rw [runContribs_cons, hok]
    obtain ⟨s3, hrun, hWF3, hcr3, hen3, hdl3, htot3, hent3⟩ :=
      ih (contribApply { s with fhe := (s.fhe.asEuint64 p.2).2 }
          ({ s with fhe := (s.fhe.asEuint64 p.2).2 } : PadState).paymentToken now p.1
          (s.fhe.asEuint64 p.2).1 cid).2
        hWF2 (by rw [hcr2]; exact hc) hen2 (by rw [hdl2]; exact hd)
        (by rw [htotv]; simp only [U64]; omega)
        (fun a => by
          by_cases hpa : p.1 = a
          · rw [hown a hpa]
            simp only [U64]
            omega
          · rw [hoth a hpa]
            exact helt a)
    refine ⟨s3, hrun, hWF3, ?_, hen3, ?_, ?_, ?_⟩
    · rw [hcr3, hcr2]
    · rw [hdl3, hdl2]
    · rw [htot3, htotv, sumAmts_cons]
      simp only [U64]
      omega
    · intro a
      rw [hent3 a, sumOwn_cons]
      by_cases hpa : p.1 = a
      · rw [hown a hpa, if_pos hpa]
        simp only [U64]
        omega
      · rw [hoth a hpa, if_neg hpa]
        simp only [U64]
        omega

/-- C1: for any sequence of contributions delivered through the ledger
callback to an existing, non-ended campaign whose deadline has not passed,
every contribution is accepted, the decrypted totalRaised equals the sum of
all contributed amounts, and each contributor's decrypted per-campaign
entry equals the sum of that contributor's own amounts (an uninitialized
entry being treated as encrypted zero on first use), provided the total
fits in the unsigned 64-bit ciphertext domain. -/
theorem c1_contribution_accounting (s : PadState) (now cid : Nat) (l : List (Nat × Nat))
    (hWF : WF s) (hc : (s.campaigns cid).creator ≠ 0) (he : (s.campaigns cid).ended = false)
    (hd : now ≤ (s.campaigns cid).deadline)
    (ht : valOf s (s.campaigns cid).totalRaised = 0)
    (hinit : ∀ a, s.contributions cid a = 0)
    (hsum : sumAmts l < U64) :
    ∃ s2, runContribs now cid s l = .ok s2 ∧
      valOf s2 (s2.campaigns cid).totalRaised = sumAmts l ∧
      ∀ a, entryVal s2 cid a = sumOwn a l := by
  have htlt : valOf s (s.campaigns cid).totalRaised < U64 := by
    rw [ht]
    simp only [U64]
    omega
  have helt : ∀ a, entryVal s cid a < U64 := by
    intro a
    rw [entryVal, if_pos (hinit a)]
    simp only [U64]
    omega
  obtain ⟨s2, hrun, -, -, -, -, htot, hent⟩ :=
    runContribs_spec now cid l s hWF hc he hd htlt helt
  refine ⟨s2, hrun, ?_, ?_⟩
  · rw [htot, ht]
    simp only [U64] at hsum ⊢
    omega
  · intro a
    rw [hent a, entryVal, if_pos (hinit a)]
    have := sumOwn_le_sumAmts a l
    simp only [U64] at hsum ⊢
    omega

theorem c1_witness :
    WF ws1 ∧ sumAmts [(7, 3), (8, 5), (7, 2)] < U64 ∧
    ∃ s2, runContribs 150 1 ws1 [(7, 3), (8, 5), (7, 2)] = .ok s2 ∧
      valOf s2 (s2.campaigns 1).totalRaised = sumAmts [(7, 3), (8, 5), (7, 2)] ∧
      ∀ a, entryVal s2 1 a = sumOwn a [(7, 3), (8, 5), (7, 2)] :=
  ⟨ws1_wf, by decide,
    c1_contribution_accounting ws1 150 1 [(7, 3), (8, 5), (7, 2)] ws1_wf (by decide)
      (by decide) (by decide) (by decide) (fun a => rfl) (by decide)⟩
